import Mathlib

/-
  Verification development for the VoIP call tracing system.

  The repository ships a dashboard prototype (app.js) together with
  documentation declaring an analysis engine (flow correlator, feature
  engine, anomaly engine, reputation store) whose Python sources are not
  part of the tree.  The dashboard data and its updateLiveStats routine
  are embedded from app.js; the engine components are modelled from the
  specification, as marked on each definition.
-/

namespace VoipTrace

/-- Signaling methods distinguished by the engine (spec section 3). -/
inductive Method where
  | INVITE
  | ACK
  | BYE
  | REGISTER
  | OPTIONS
  | OTHER
  deriving DecidableEq, Repr

/-- Protocol class of a metadata record (spec section 3). -/
inductive Proto where
  | SIGNALING
  | MEDIA
  | MEDIA_CONTROL
  | OTHER
  deriving DecidableEq, Repr

/-- Modelled from the spec: the MetadataRecord of section 3; the parsing
engine (voip_analyzer.py, declared by the repository) is not under src/.
IP addresses are numeric. -/
structure MetadataRecord where
  ts : Nat
  proto : Proto
  method : Method
  dialogId : String
  srcIp : Nat
  destIp : Nat
  size : Nat
  deriving DecidableEq, Repr

/-- Dialog states of the correlator state machine (spec section 4.1). -/
inductive DialogState where
  | INIT
  | RINGING
  | ESTABLISHED
  | TERMINATED
  | TIMED_OUT
  deriving DecidableEq, Repr

/-- TERMINATED and TIMED_OUT are the terminal states. -/
def DialogState.isTerminal : DialogState → Bool
  | .TERMINATED => true
  | .TIMED_OUT => true
  | _ => false

/-- Modelled from the spec: per-dialog state owned by the Flow Correlator. -/
structure Dialog where
  state : DialogState
  createdAt : Nat
  lastActivityAt : Nat
  methodSeq : List Method
  deriving DecidableEq, Repr

/-- Modelled from the spec: session summary emitted on dialog termination. -/
structure SessionSummary where
  dialogId : String
  finalState : DialogState
  duration : Nat
  methodSeq : List Method
  deriving DecidableEq, Repr

/-- Modelled from the spec: a PROTOCOL_ANOMALY candidate signal recorded when
a transition precondition is not met. -/
structure ProtocolAnomaly where
  dialogId : String
  ts : Nat
  deriving DecidableEq, Repr

/-- Modelled from the spec: an emitted record of one transition into TIMED_OUT. -/
structure TimeoutEvent where
  dialogId : String
  ts : Nat
  deriving DecidableEq, Repr

/-- Modelled from the spec: the configuration surface of section 6. -/
structure Config where
  idleTimeoutInit : Nat
  idleTimeoutEstablished : Nat
  rapidThreshold : Nat
  rapidWindow : Nat
  minPopulationForMl : Nat
  riskDecayHalfLife : Nat
  deriving Repr

/-- Idle limit applicable to a state: longer once established. -/
def Config.idleLimit (cfg : Config) : DialogState → Nat
  | .ESTABLISHED => cfg.idleTimeoutEstablished
  | _ => cfg.idleTimeoutInit

/-- Output of one per-dialog step: replacement dialog plus emitted items. -/
structure DOut where
  dialog : Option Dialog
  summaries : List SessionSummary
  anomalies : List ProtocolAnomaly
  timeouts : List TimeoutEvent
  deriving DecidableEq, Repr

/-- Modelled from the spec: per-dialog transition function of section 4.1
(the correlator source is not under src/).  The idle window is checked
lazily on next record arrival; a transition whose preconditions are not
met is recorded as a PROTOCOL_ANOMALY and never rejected. -/
def dstep (cfg : Config) (od : Option Dialog) (r : MetadataRecord) : DOut :=
  match od with
  | none =>
    match r.method with
    | .INVITE => ⟨some ⟨.INIT, r.ts, r.ts, [.INVITE]⟩, [], [], []⟩
    | _ => ⟨none, [], [⟨r.dialogId, r.ts⟩], []⟩
  | some dlg =>
    if dlg.state.isTerminal then
      ⟨some dlg, [], [⟨r.dialogId, r.ts⟩], []⟩
    else if dlg.lastActivityAt + cfg.idleLimit dlg.state < r.ts then
      ⟨some { dlg with state := .TIMED_OUT },
       [⟨r.dialogId, .TIMED_OUT, dlg.lastActivityAt - dlg.createdAt, dlg.methodSeq⟩],
       [⟨r.dialogId, r.ts⟩],
       [⟨r.dialogId, r.ts⟩]⟩
    else
      match r.method, dlg.state with
      | .ACK, .INIT =>
        ⟨some { dlg with state := .ESTABLISHED, lastActivityAt := r.ts,
                         methodSeq := dlg.methodSeq ++ [.ACK] }, [], [], []⟩
      | .ACK, .RINGING =>
        ⟨some { dlg with state := .ESTABLISHED, lastActivityAt := r.ts,
                         methodSeq := dlg.methodSeq ++ [.ACK] }, [], [], []⟩
      | .BYE, _ =>
        ⟨some { dlg with state := .TERMINATED, lastActivityAt := r.ts,
                         methodSeq := dlg.methodSeq ++ [.BYE] },
         [⟨r.dialogId, .TERMINATED, r.ts - dlg.createdAt, dlg.methodSeq ++ [.BYE]⟩],
         [], []⟩
      | _, _ =>
        ⟨some { dlg with lastActivityAt := r.ts,
                         methodSeq := dlg.methodSeq ++ [r.method] },
         [], [⟨r.dialogId, r.ts⟩], []⟩

/-- Whether the arriving record meets the preconditions of some transition
of the dialog state machine (including creation by a first INVITE). -/
def preconditionsMet (cfg : Config) (od : Option Dialog) (r : MetadataRecord) : Bool :=
  match od with
  | none => r.method == Method.INVITE
  | some dlg =>
    if dlg.state.isTerminal then false
    else if dlg.lastActivityAt + cfg.idleLimit dlg.state < r.ts then false
    else
      match r.method, dlg.state with
      | .ACK, .INIT => true
      | .ACK, .RINGING => true
      | .BYE, _ => true
      | _, _ => false

/-- Modelled from the spec: the Flow Correlator state, a keyed dialog map
plus the append-only emitted outputs. -/
structure CorrState where
  dialogs : String → Option Dialog
  summaries : List SessionSummary
  anomalies : List ProtocolAnomaly
  timeouts : List TimeoutEvent

/-- The correlator starts with no dialogs and nothing emitted. -/
def initState : CorrState := ⟨fun _ => none, [], [], []⟩

/-- One correlator step: apply the per-dialog step at the record key and
append its outputs. -/
def step (cfg : Config) (s : CorrState) (r : MetadataRecord) : CorrState :=
  let o := dstep cfg (s.dialogs r.dialogId) r
  ⟨fun k => if k = r.dialogId then o.dialog else s.dialogs k,
   s.summaries ++ o.summaries,
   s.anomalies ++ o.anomalies,
   s.timeouts ++ o.timeouts⟩

/-- Run the Flow Correlator over an entire input stream. -/
def runCorrelator (cfg : Config) (l : List MetadataRecord) : CorrState :=
  l.foldl (step cfg) initState

/-- Projection of the correlator state onto one dialog key. -/
structure DView where
  dialog : Option Dialog
  summaries : List SessionSummary
  anomalies : List ProtocolAnomaly
  timeouts : List TimeoutEvent
  deriving DecidableEq, Repr

/-- View of a correlator state at one dialog key. -/
def viewOf (s : CorrState) (d : String) : DView :=
  ⟨s.dialogs d,
   s.summaries.filter (fun x => x.dialogId == d),
   s.anomalies.filter (fun x => x.dialogId == d),
   s.timeouts.filter (fun x => x.dialogId == d)⟩

/-- Per-dialog step acting on a view. -/
def dstepView (cfg : Config) (v : DView) (r : MetadataRecord) : DView :=
  let o := dstep cfg v.dialog r
  ⟨o.dialog, v.summaries ++ o.summaries, v.anomalies ++ o.anomalies,
   v.timeouts ++ o.timeouts⟩

/-- Modelled from the spec: the per-source-IP rolling aggregate (IPProfile,
sections 3 and 4.2); the feature engine source named by the repository is
not under src/. -/
structure IPProfile where
  totalPackets : Nat
  destIps : List Nat
  sigCount : Nat
  mediaCount : Nat
  inviteCount : Nat
  byeCount : Nat
  registerCount : Nat
  optionsCount : Nat
  otherMethodCount : Nat
  tsSeen : List Nat
  nightCount : Nat
  durations : List Nat
  anomCount : Nat
  orphanMedia : Nat
  deriving DecidableEq, Repr

/-- The empty profile for a newly tracked IP. -/
def emptyProfile : IPProfile := ⟨0, [], 0, 0, 0, 0, 0, 0, 0, [], 0, [], 0, 0⟩

/-- A timestamp falls in the configured night hours (hours 0 to 5). -/
def isNightHour (ts : Nat) : Bool := decide ((ts / 3600) % 24 < 6)

/-- Modelled from the spec: inputs consumed by the Feature Engine, session
summaries plus raw per-record events attributed to a source IP. -/
inductive FEInput where
  | raw (r : MetadataRecord)
  | session (srcIp : Nat) (s : SessionSummary)
  | anom (srcIp : Nat) (a : ProtocolAnomaly)
  | orphan (srcIp : Nat)
  deriving DecidableEq, Repr

/-- Source IP an input is attributed to. -/
def FEInput.srcOf : FEInput → Nat
  | .raw r => r.srcIp
  | .session ip _ => ip
  | .anom ip _ => ip
  | .orphan ip => ip

/-- Fold one raw record into a profile. -/
def recordIntoProfile (r : MetadataRecord) (p : IPProfile) : IPProfile :=
  { p with
    totalPackets := p.totalPackets + 1
    destIps := if p.destIps.contains r.destIp then p.destIps else r.destIp :: p.destIps
    sigCount := if r.proto = .SIGNALING then p.sigCount + 1 else p.sigCount
    mediaCount := if r.proto = .MEDIA then p.mediaCount + 1 else p.mediaCount
    inviteCount := if r.method = .INVITE then p.inviteCount + 1 else p.inviteCount
    byeCount := if r.method = .BYE then p.byeCount + 1 else p.byeCount
    registerCount := if r.method = .REGISTER then p.registerCount + 1 else p.registerCount
    optionsCount := if r.method = .OPTIONS then p.optionsCount + 1 else p.optionsCount
    otherMethodCount :=
      if r.method = .ACK ∨ r.method = .OTHER then p.otherMethodCount + 1
      else p.otherMethodCount
    tsSeen := r.ts :: p.tsSeen
    nightCount := if isNightHour r.ts then p.nightCount + 1 else p.nightCount }

/-- Fold one feature-engine input into a profile. -/
def intoProfile : FEInput → IPProfile → IPProfile
  | .raw r, p => recordIntoProfile r p
  | .session _ s, p => { p with durations := s.duration :: p.durations }
  | .anom _ _, p => { p with anomCount := p.anomCount + 1 }
  | .orphan _, p => { p with orphanMedia := p.orphanMedia + 1 }

/-- Update an association list at a key, inserting a fresh entry when the
key is absent; existing key order is preserved. -/
def updAssoc (st : List (Nat × IPProfile)) (ip : Nat) (f : IPProfile → IPProfile) :
    List (Nat × IPProfile) :=
  match st with
  | [] => [(ip, f emptyProfile)]
  | (k, p) :: rest =>
    if k = ip then (k, f p) :: rest else (k, p) :: updAssoc rest ip f

/-- One Feature Engine step. -/
def feUpdate (st : List (Nat × IPProfile)) (i : FEInput) : List (Nat × IPProfile) :=
  updAssoc st i.srcOf (intoProfile i)

/-- Run the Feature Engine over an ordered input stream. -/
def runFeatureEngine (l : List FEInput) : List (Nat × IPProfile) :=
  l.foldl feUpdate []

/-- Lookup in a profile association list. -/
def feLookup (st : List (Nat × IPProfile)) (ip : Nat) : Option IPProfile :=
  (st.find? (fun x => x.1 == ip)).map (fun x => x.2)

/-- Mean of a list of naturals as a rational, zero when empty. -/
def meanQ (l : List Nat) : Rat :=
  if l.length = 0 then 0 else ((l.sum : Rat)) / (l.length : Rat)

/-- Population variance of a list of naturals as a rational, zero when empty. -/
def varQ (l : List Nat) : Rat :=
  if l.length = 0 then 0
  else ((l.map (fun x => ((x : Rat) - meanQ l) ^ 2)).sum) / (l.length : Rat)

/-- Differences of consecutive entries (inter-arrival gaps, newest first). -/
def gaps : List Nat → List Nat
  | a :: b :: rest => (a - b) :: gaps (b :: rest)
  | _ => []

/-- Modelled from the spec: the fixed-order 15-dimension feature vector of
section 4.2. -/
def featureVector (p : IPProfile) : List Rat :=
  [ (p.totalPackets : Rat),
    (p.destIps.length : Rat),
    ((p.destIps.map (fun ip => ip / 256)).dedup.length : Rat),
    (if p.mediaCount = 0 then (p.sigCount : Rat)
     else (p.sigCount : Rat) / (p.mediaCount : Rat)),
    (p.inviteCount : Rat),
    (p.byeCount : Rat),
    (p.registerCount : Rat),
    (p.optionsCount : Rat),
    (p.otherMethodCount : Rat),
    meanQ (gaps p.tsSeen),
    varQ (gaps p.tsSeen),
    (if p.totalPackets = 0 then 0 else (p.nightCount : Rat) / (p.totalPackets : Rat)),
    meanQ p.durations,
    ((p.durations.foldr max 0 : Nat) : Rat),
    ((p.anomCount + p.orphanMedia : Nat) : Rat) ]

/-- Pure read of the current feature vector of one tracked IP. -/
def getFeatureVector (st : List (Nat × IPProfile)) (ip : Nat) : Option (List Rat) :=
  (feLookup st ip).map featureVector

/-- Severities of a suspicious event (spec section 3). -/
inductive Severity where
  | LOW
  | MEDIUM
  | HIGH
  | CRITICAL
  deriving DecidableEq, Repr

/-- Tagged variants of a suspicious event (spec section 3). -/
inductive EventType where
  | RAPID_SIGNALING
  | TIME_ANOMALY
  | GEO_SPREAD
  | ML_OUTLIER
  deriving DecidableEq, Repr

/-- Modelled from the spec: the SuspiciousEvent of section 3 (the anomaly
engine source named by the repository is not under src/). -/
structure SuspiciousEvent where
  ts : Nat
  etype : EventType
  srcIp : Nat
  severity : Severity
  contributingScore : Nat
  deriving DecidableEq, Repr

/-- Monotone tiered severity of a fired rapid-signaling rule: HIGH when the
count exceeds the threshold, CRITICAL from twice the threshold up. -/
def severityOf (count threshold : Nat) : Severity :=
  if threshold * 2 ≤ count then .CRITICAL else .HIGH

/-- Membership test of the rapid-signaling rule window: an INVITE of the
given source IP whose timestamp lies within the window ending now. -/
def windowPred (ip cur window : Nat) (w : MetadataRecord) : Bool :=
  decide (w.srcIp = ip ∧ w.method = Method.INVITE ∧ cur ≤ w.ts + window)

/-- An INVITE of the given source IP inside the burst interval of C4. -/
def burstPred (ip t : Nat) (r : MetadataRecord) : Bool :=
  decide (r.srcIp = ip ∧ r.method = Method.INVITE ∧ t ≤ r.ts ∧ r.ts ≤ t + 10)

/-- Count of INVITE-equivalent records of one source IP lying within the
rule window ending at the current timestamp. -/
def invitesNear (ip cur window : Nat) (l : List MetadataRecord) : Nat :=
  l.countP (windowPred ip cur window)

/-- Modelled from the spec: the fast-path rapid-signaling rule of section
4.3, evaluated at stream position p over the records seen so far. -/
def ruleAt (cfg : Config) (l : List MetadataRecord) (p : Nat) : Option SuspiciousEvent :=
  match l[p]? with
  | none => none
  | some r =>
    let c := invitesNear r.srcIp r.ts cfg.rapidWindow (l.take (p + 1))
    if cfg.rapidThreshold < c then
      some ⟨r.ts, .RAPID_SIGNALING, r.srcIp, severityOf c cfg.rapidThreshold, c⟩
    else none

/-- All fast-path events emitted while ingesting a stream, one evaluation
per arriving record. -/
def fastEvents (cfg : Config) (l : List MetadataRecord) : List SuspiciousEvent :=
  (List.range l.length).filterMap (ruleAt cfg l)

/-- Total packet count over a tracked population. -/
def totalOf (st : List (Nat × IPProfile)) : Nat :=
  (st.map (fun x => x.2.totalPackets)).sum

/-- Descriptive outlier test of the slow path: an IP is an outlier when its
packet count exceeds one and a half times the population mean. -/
def isOutlier (st : List (Nat × IPProfile)) (p : IPProfile) : Bool :=
  decide (3 * totalOf st < 2 * st.length * p.totalPackets)

/-- Modelled from the spec: the slow path of section 4.3; outlier scoring
is skipped entirely below the minimum population size. -/
def mlOutlierEvents (cfg : Config) (st : List (Nat × IPProfile)) : List SuspiciousEvent :=
  if st.length < cfg.minPopulationForMl then []
  else
    st.filterMap (fun x =>
      if isOutlier st x.2 then some ⟨0, .ML_OUTLIER, x.1, .MEDIUM, x.2.totalPackets⟩
      else none)

/-- Profiles tracked by the Feature Engine after ingesting raw records. -/
def profilesOf (l : List MetadataRecord) : List (Nat × IPProfile) :=
  runFeatureEngine (l.map FEInput.raw)

/-- One Anomaly Engine cycle: fast-path rule events merged with the slow
path outlier events over the tracked population. -/
def runCycle (cfg : Config) (l : List MetadataRecord) : List SuspiciousEvent :=
  fastEvents cfg l ++ mlOutlierEvents cfg (profilesOf l)

/-- Modelled from the spec: the ReputationRecord of section 3 with the
convention fixed there, 0 most severe and 100 neutral. -/
structure ReputationRecord where
  ip : Nat
  score : Nat
  incidentCount : Nat
  lastSeen : Nat
  deriving DecidableEq, Repr

/-- Neutral baseline a score recovers toward absent new incidents. -/
def neutralBaseline : Nat := 100

/-- Risk tier derived from a score via fixed thresholds (lower is worse). -/
def riskTier (score : Nat) : Severity :=
  if score < 25 then .CRITICAL
  else if score < 50 then .HIGH
  else if score < 75 then .MEDIUM
  else .LOW

/-- Modelled from the spec: lazy exponential decay of section 4.4; after k
whole half-lives the remaining distance to the baseline is divided by 2^k. -/
def decayScore (halfLife score lastSeen now : Nat) : Nat :=
  neutralBaseline - (neutralBaseline - score) / 2 ^ ((now - lastSeen) / halfLife)

/-- Lookup in the reputation store. -/
def repLookup (st : List (Nat × ReputationRecord)) (ip : Nat) : Option ReputationRecord :=
  (st.find? (fun x => x.1 == ip)).map (fun x => x.2)

/-- Modelled from the spec: the get operation of the Reputation Store, a
pure read returning the lazily decayed record. -/
def getRep (cfg : Config) (st : List (Nat × ReputationRecord)) (ip now : Nat) :
    Option ReputationRecord :=
  (repLookup st ip).map (fun rec =>
    { rec with score := decayScore cfg.riskDecayHalfLife rec.score rec.lastSeen now })

/-- Modelled from the spec: the upsert operation; the decayed score is
lowered by the incident delta and the incident count advanced. -/
def upsertRep (cfg : Config) (st : List (Nat × ReputationRecord)) (ip delta now : Nat) :
    List (Nat × ReputationRecord) :=
  match st with
  | [] => [(ip, ⟨ip, neutralBaseline - delta, 1, now⟩)]
  | (k, rec) :: rest =>
    if k = ip then
      (k, ⟨ip, decayScore cfg.riskDecayHalfLife rec.score rec.lastSeen now - delta,
           rec.incidentCount + 1, now⟩) :: rest
    else (k, rec) :: upsertRep cfg rest ip delta now

/-- Operations the Reputation Store exposes to its callers. -/
inductive RepOp where
  | get (ip now : Nat)
  | upsert (ip delta now : Nat)
  deriving DecidableEq, Repr

/-- Apply one store operation, returning the new store and the read result. -/
def applyRepOp (cfg : Config) (st : List (Nat × ReputationRecord)) :
    RepOp → List (Nat × ReputationRecord) × Option ReputationRecord
  | .get ip now => (st, getRep cfg st ip now)
  | .upsert ip delta now => (upsertRep cfg st ip delta now, none)

/-- One suspiciousActivity entry of the dashboard data (app.js lines 32 to 60). -/
structure SuspiciousEntry where
  timestamp : String
  stype : String
  sourceIP : String
  destIP : String
  severity : String
  description : String
  riskScore : Nat
  deriving DecidableEq, Repr

/-- The data.suspiciousActivity literal of app.js. -/
def suspiciousActivity : List SuspiciousEntry :=
  [ ⟨"2024-03-15 14:37:23", "Rapid SIP Flooding", "192.168.1.100", "10.0.0.25",
     "HIGH", "50+ INVITE requests in 30 seconds", 85⟩,
    ⟨"2024-03-15 14:35:41", "Unusual Time Pattern", "203.0.113.15", "Multiple",
     "MEDIUM", "75% of calls during night hours", 67⟩,
    ⟨"2024-03-15 14:33:12", "Geographic Anomaly", "198.51.100.25", "Multiple",
     "MEDIUM", "Contacted 25+ different subnets", 72⟩ ]

/-- One ipReputation entry of the dashboard data (app.js lines 74 to 79). -/
structure ReputationEntry where
  ip : String
  risk : String
  score : Nat
  incidents : Nat
  lastSeen : String
  deriving DecidableEq, Repr

/-- The data.ipReputation literal of app.js. -/
def ipReputation : List ReputationEntry :=
  [ ⟨"192.168.1.100", "CRITICAL", 15, 8, "2024-03-15 14:37:23"⟩,
    ⟨"203.0.113.15", "HIGH", 33, 5, "2024-03-15 14:35:41"⟩,
    ⟨"198.51.100.25", "HIGH", 28, 4, "2024-03-15 14:33:12"⟩,
    ⟨"172.16.0.200", "MEDIUM", 55, 2, "2024-03-15 14:29:15"⟩ ]

/-- Numeric rank of a severity or risk-tier label, worse labels ranking
higher. -/
def sevRank : String → Nat
  | "LOW" => 0
  | "MEDIUM" => 1
  | "HIGH" => 2
  | "CRITICAL" => 3
  | _ => 0

/-- Every scored output of the program as a pair of severity rank and
emitted score: the reputation table rows and the suspicious events. -/
def scoredOutputs : List (Nat × Nat) :=
  ipReputation.map (fun e => (sevRank e.risk, e.score)) ++
    suspiciousActivity.map (fun e => (sevRank e.severity, e.riskScore))

/-- The claim that one risk-score direction is used uniformly across every
output: either lower always means worse, or higher always means worse. -/
def UniformScoreDirection : Prop :=
  (∀ p ∈ scoredOutputs, ∀ q ∈ scoredOutputs, p.1 < q.1 → q.2 ≤ p.2) ∨
  (∀ p ∈ scoredOutputs, ∀ q ∈ scoredOutputs, p.1 < q.1 → p.2 ≤ q.2)

/-- One timeline point of the dashboard data (app.js lines 12 to 23). -/
structure TimelinePoint where
  time : String
  packets : Nat
  deriving DecidableEq, Repr

/-- The data.liveTraffic.timeline literal of app.js. -/
def initialTimeline : List TimelinePoint :=
  [ ⟨"14:30", 45⟩, ⟨"14:31", 52⟩, ⟨"14:32", 38⟩, ⟨"14:33", 67⟩, ⟨"14:34", 73⟩,
    ⟨"14:35", 41⟩, ⟨"14:36", 89⟩, ⟨"14:37", 124⟩, ⟨"14:38", 98⟩, ⟨"14:39", 156⟩ ]

/-- The timeline chart state: its labels array and its single dataset. -/
structure TimelineChart where
  labels : List String
  data : List Nat
  deriving DecidableEq, Repr

/-- The chart as created by createTimelineChart from the timeline literal. -/
def initChart : TimelineChart :=
  ⟨initialTimeline.map (fun t => t.time), initialTimeline.map (fun t => t.packets)⟩

/-- The timeline update of updateLiveStats (app.js lines 546 to 567): push
the new point onto both arrays, then shift both fronts once the labels
array holds more than 10 entries. -/
def updateLiveStats (c : TimelineChart) (newTime : String) (newPackets : Nat) :
    TimelineChart :=
  let labels := c.labels ++ [newTime]
  let ds := c.data ++ [newPackets]
  if 10 < labels.length then ⟨labels.tail, ds.tail⟩ else ⟨labels, ds⟩

/-- Count of one at a dialog exactly when it stands in TIMED_OUT. -/
def timedCount : Option Dialog → Nat
  | some dlg => if dlg.state = DialogState.TIMED_OUT then 1 else 0
  | none => 0

/-- Dialog identifier used by concrete witnesses. -/
def dX : String := "call-1"

/-- Concrete metadata record used by concrete witnesses. -/
def recX : MetadataRecord := ⟨100, .SIGNALING, .INVITE, dX, 7, 8, 120⟩

/-- Concrete ACK record arriving after the idle window, for the C5 witness. -/
def recAckLate : MetadataRecord := ⟨200, .SIGNALING, .ACK, dX, 7, 8, 80⟩

/-- Concrete BYE record with no prior INVITE, for the C9 witness. -/
def recByeOrphan : MetadataRecord := ⟨100, .SIGNALING, .BYE, dX, 7, 8, 60⟩

/-- Concrete ACK record inside the idle window, for the C1 witness. -/
def recAckX : MetadataRecord := ⟨110, .SIGNALING, .ACK, dX, 7, 8, 80⟩

/-- Concrete BYE record inside the idle window, for the C1 witness. -/
def recByeX : MetadataRecord := ⟨150, .SIGNALING, .BYE, dX, 7, 8, 60⟩

/-- Reputation configuration used by concrete witnesses. -/
def cfgRep : Config := ⟨30, 120, 50, 30, 5, 3600⟩

/-- Concrete reputation record used by concrete witnesses. -/
def repRecX : ReputationRecord := ⟨7, 40, 3, 1000⟩

/-- Concrete reputation store used by concrete witnesses. -/
def repStoreX : List (Nat × ReputationRecord) := [(7, repRecX)]

/-- Label used by the concrete C10 witness. -/
def wLabel : String := "14:40"

/-- C2: the program does not use one uniform risk-score direction: in the
reputation table the CRITICAL row carries score 15 while a HIGH suspicious
event carries riskScore 85, so neither scale direction covers all outputs. -/
theorem c2_counterexample : ¬ UniformScoreDirection := by
  unfold UniformScoreDirection
  decide

/-- C2 (amended): each output stream is internally consistent, but with
opposite directions: within ipReputation a worse risk tier always has a
strictly lower score, while within suspiciousActivity a worse severity
always has a strictly higher riskScore. -/
theorem c2_internal_consistency :
    (∀ p ∈ ipReputation, ∀ q ∈ ipReputation,
       sevRank p.risk < sevRank q.risk → q.score < p.score) ∧
    (∀ p ∈ suspiciousActivity, ∀ q ∈ suspiciousActivity,
       sevRank p.severity < sevRank q.severity → p.riskScore < q.riskScore) := by
  decide

/-- C3: feature extraction is deterministic: running the Feature Engine on
two identical ordered input streams yields identical feature vectors for
every tracked IP. -/
theorem c3_feature_determinism : ∀ (l1 l2 : List FEInput), l1 = l2 →
    ∀ ip, getFeatureVector (runFeatureEngine l1) ip =
      getFeatureVector (runFeatureEngine l2) ip := by
  intro l1 l2 h ip
  rw [h]

/-- Witness for C3 at a concrete one-record stream. -/
theorem c3_witness :
    getFeatureVector (runFeatureEngine [FEInput.raw recX]) 7 =
      getFeatureVector (runFeatureEngine [FEInput.raw recX]) 7 :=
  c3_feature_determinism [FEInput.raw recX] [FEInput.raw recX] rfl 7

/-- C8: reading the Reputation Store is idempotent and effect-free: a get
returns the same record when repeated with no intervening write, and the
store contents at that IP are unchanged by the read. -/
theorem c8_get_idempotent : ∀ (cfg : Config) (st : List (Nat × ReputationRecord))
    (ip now : Nat),
    (applyRepOp cfg st (RepOp.get ip now)).2 =
      (applyRepOp cfg (applyRepOp cfg st (RepOp.get ip now)).1 (RepOp.get ip now)).2 ∧
    repLookup (applyRepOp cfg st (RepOp.get ip now)).1 ip = repLookup st ip := by
  intro cfg st ip now
  exact ⟨rfl, rfl⟩

/-- C6: after at least one decay half-life with no new incidents, the score
returned on the next read has moved at least half of the distance from its
stored value toward the neutral baseline. -/
theorem c6_decay_halfway : ∀ (cfg : Config) (st : List (Nat × ReputationRecord))
    (ip now : Nat) (rec : ReputationRecord),
    repLookup st ip = some rec →
    rec.score ≤ neutralBaseline →
    0 < cfg.riskDecayHalfLife →
    rec.lastSeen + cfg.riskDecayHalfLife ≤ now →
    ∃ rec2, getRep cfg st ip now = some rec2 ∧ rec.score ≤ rec2.score ∧
      neutralBaseline - rec.score ≤ 2 * (rec2.score - rec.score) := by
  intro cfg st ip now rec hlook hle hpos hgap
  refine ⟨_, by rw [getRep, hlook]; rfl, ?_⟩
  have hk : 1 ≤ (now - rec.lastSeen) / cfg.riskDecayHalfLife :=
    (Nat.one_le_div_iff hpos).mpr (by omega)
  have h2k : 2 ≤ 2 ^ ((now - rec.lastSeen) / cfg.riskDecayHalfLife) := by
    calc 2 = 2 ^ 1 := rfl
    _ ≤ 2 ^ ((now - rec.lastSeen) / cfg.riskDecayHalfLife) :=
        Nat.pow_le_pow_right (by omega) hk
  have hdiv2 : (neutralBaseline - rec.score) /
      2 ^ ((now - rec.lastSeen) / cfg.riskDecayHalfLife) ≤
      (neutralBaseline - rec.score) / 2 :=
    Nat.div_le_div_left h2k (by omega)
  have hdivd : (neutralBaseline - rec.score) /
      2 ^ ((now - rec.lastSeen) / cfg.riskDecayHalfLife) ≤
      neutralBaseline - rec.score :=
    Nat.div_le_self _ _
  simp only [decayScore]
  unfold neutralBaseline at *
  omega

/-- Witness for C6 at a concrete store, one half-life after the last
incident. -/
theorem c6_witness :
    repLookup repStoreX 7 = some repRecX ∧
    repRecX.score ≤ neutralBaseline ∧
    0 < cfgRep.riskDecayHalfLife ∧
    repRecX.lastSeen + cfgRep.riskDecayHalfLife ≤ 4600 ∧
    (∃ rec2, getRep cfgRep repStoreX 7 4600 = some rec2 ∧
      repRecX.score ≤ rec2.score ∧
      neutralBaseline - repRecX.score ≤ 2 * (rec2.score - repRecX.score)) :=
  ⟨by decide, by decide, by decide, by decide,
   c6_decay_halfway cfgRep repStoreX 7 4600 repRecX (by decide) (by decide)
     (by decide) (by decide)⟩

/-- C10: updateLiveStats keeps the timeline labels and data arrays at equal
length and at most 10 entries, removing the oldest entry from the front of
both arrays when a new point would exceed 10. -/
theorem c10_chart_invariant : ∀ (c : TimelineChart) (t : String) (p : Nat),
    c.labels.length = c.data.length →
    c.labels.length ≤ 10 →
    ((updateLiveStats c t p).labels.length = (updateLiveStats c t p).data.length ∧
     (updateLiveStats c t p).labels.length ≤ 10 ∧
     (c.labels.length = 10 →
       (updateLiveStats c t p).labels = c.labels.tail ++ [t] ∧
       (updateLiveStats c t p).data = c.data.tail ++ [p]) ∧
     (c.labels.length < 10 →
       (updateLiveStats c t p).labels = c.labels ++ [t] ∧
       (updateLiveStats c t p).data = c.data ++ [p])) := by
  intro c t p h1 h2
  unfold updateLiveStats
  by_cases h : c.labels.length = 10
  · have hlt : 10 < (c.labels ++ [t]).length := by simp [h]
    rw [if_pos hlt]
    cases hc : c.labels with
    | nil => rw [hc] at h; simp at h
    | cons a as =>
      cases hd : c.data with
      | nil => rw [hc, hd] at h1; simp at h1
      | cons b bs =>
        rw [hc] at h
        rw [hc, hd] at h1
        simp only [List.length_cons] at h1 h
        refine ⟨?_, ?_, fun _ => ⟨?_, ?_⟩, fun hlt10 => ?_⟩
        · simp [h1]
        · simp [h]
        · simp
        · simp
        · simp only [List.length_cons] at hlt10
          omega
  · have hnlt : ¬ 10 < (c.labels ++ [t]).length := by
      simp only [List.length_append, List.length_singleton]
      omega
    rw [if_neg hnlt]
    refine ⟨by simp [h1], by simp; omega, fun h10 => absurd h10 h, fun _ => ⟨rfl, rfl⟩⟩

/-- Witness for C10 at the initial chart of app.js, which holds exactly 10
points, so the update shifts the oldest point out. -/
theorem c10_witness :
    initChart.labels.length = initChart.data.length ∧
    initChart.labels.length ≤ 10 ∧
    (updateLiveStats initChart wLabel 77).labels = initChart.labels.tail ++ [wLabel] ∧
    (updateLiveStats initChart wLabel 77).data = initChart.data.tail ++ [77] := by
  have h := c10_chart_invariant initChart wLabel 77 (by decide) (by decide)
  exact ⟨by decide, by decide, (h.2.2.1 (by decide)).1, (h.2.2.1 (by decide)).2⟩

/-- Everything a per-dialog step emits carries the dialog id of the
arriving record. -/
theorem dstep_tagged (cfg : Config) (od : Option Dialog) (r : MetadataRecord) :
    (∀ x ∈ (dstep cfg od r).summaries, x.dialogId = r.dialogId) ∧
    (∀ x ∈ (dstep cfg od r).anomalies, x.dialogId = r.dialogId) ∧
    (∀ x ∈ (dstep cfg od r).timeouts, x.dialogId = r.dialogId) := by
  cases od with
  | none => cases hm : r.method <;> simp [dstep, hm]
  | some dlg =>
    obtain ⟨st, ca, la, ms⟩ := dlg
    cases st <;> cases hm : r.method <;>
      simp [dstep, hm, DialogState.isTerminal, Config.idleLimit] <;>
      split <;> simp_all

/-- Filtering a uniformly foreign-tagged emission at another key drops it. -/
theorem filter_tag_nil {α : Type} (f : α → String) (l : List α) (e d : String)
    (hne : e ≠ d) (h : ∀ x ∈ l, f x = e) :
    l.filter (fun x => f x == d) = [] := by
  induction l with
  | nil => rfl
  | cons a l ih =>
    have ha : f a = e := h a (by simp)
    have hfa : (f a == d) = false := by
      rw [ha]
      exact beq_false_of_ne hne
    simp only [List.filter_cons, hfa, Bool.false_eq_true, if_false]
    exact ih fun x hx => h x (by simp [hx])

/-- Filtering a uniformly home-tagged emission at its own key keeps it. -/
theorem filter_tag_self {α : Type} (f : α → String) (l : List α) (d : String)
    (h : ∀ x ∈ l, f x = d) :
    l.filter (fun x => f x == d) = l := by
  induction l with
  | nil => rfl
  | cons a l ih =>
    have ha : f a = d := h a (by simp)
    have hfa : (f a == d) = true := by
      rw [ha]
      exact beq_self_eq_true d
    simp only [List.filter_cons, hfa, if_true]
    rw [ih fun x hx => h x (by simp [hx])]

/-- A correlator step leaves the view at every other dialog key unchanged. -/
theorem viewOf_step_ne (cfg : Config) (s : CorrState) (r : MetadataRecord)
    (d : String) (h : r.dialogId ≠ d) :
    viewOf (step cfg s r) d = viewOf s d := by
  obtain ⟨hs, ha, ht⟩ := dstep_tagged cfg (s.dialogs r.dialogId) r
  simp only [viewOf, step, List.filter_append, DView.mk.injEq]
  refine ⟨if_neg (Ne.symm h), ?_, ?_, ?_⟩
  · rw [filter_tag_nil SessionSummary.dialogId _ r.dialogId d h hs, List.append_nil]
  · rw [filter_tag_nil ProtocolAnomaly.dialogId _ r.dialogId d h ha, List.append_nil]
  · rw [filter_tag_nil TimeoutEvent.dialogId _ r.dialogId d h ht, List.append_nil]

/-- A correlator step acts on the view at the arriving record's own key as
the per-dialog step. -/
theorem viewOf_step_eq (cfg : Config) (s : CorrState) (r : MetadataRecord)
    (d : String) (h : r.dialogId = d) :
    viewOf (step cfg s r) d = dstepView cfg (viewOf s d) r := by
  subst h
  obtain ⟨hs, ha, ht⟩ := dstep_tagged cfg (s.dialogs r.dialogId) r
  simp only [viewOf, step, dstepView, List.filter_append, DView.mk.injEq]
  refine ⟨by simp, ?_, ?_, ?_⟩
  · rw [filter_tag_self SessionSummary.dialogId _ r.dialogId hs]
  · rw [filter_tag_self ProtocolAnomaly.dialogId _ r.dialogId ha]
  · rw [filter_tag_self TimeoutEvent.dialogId _ r.dialogId ht]

/-- The view of a correlator run at one dialog key is the per-dialog fold
over exactly the records of that key. -/
theorem viewOf_foldl (cfg : Config) (l : List MetadataRecord) (s : CorrState)
    (d : String) :
    viewOf (l.foldl (step cfg) s) d =
      (l.filter (fun r => r.dialogId == d)).foldl (dstepView cfg) (viewOf s d) := by
  induction l generalizing s with
  | nil => rfl
  | cons r l ih =>
    simp only [List.foldl_cons, List.filter_cons]
    by_cases h : r.dialogId = d
    · have hb : (r.dialogId == d) = true := by rw [h]; exact beq_self_eq_true d
      rw [hb]
      simp only [if_true, List.foldl_cons]
      rw [ih (step cfg s r), viewOf_step_eq cfg s r d h]
    · have hb : (r.dialogId == d) = false := beq_false_of_ne h
      rw [hb]
      simp only [Bool.false_eq_true, if_false]
      rw [ih (step cfg s r), viewOf_step_ne cfg s r d h]

/-- Per-dialog step on a fresh dialog id and an INVITE record: the dialog
is created in INIT and nothing is emitted. -/
theorem dstep_none_invite (cfg : Config) (r : MetadataRecord)
    (h : r.method = .INVITE) :
    dstep cfg none r = ⟨some ⟨.INIT, r.ts, r.ts, [.INVITE]⟩, [], [], []⟩ := by
  simp [dstep, h]

/-- Per-dialog step on an INIT dialog and an in-window ACK: ESTABLISHED. -/
theorem dstep_ack_init (cfg : Config) (dlg : Dialog) (r : MetadataRecord)
    (hm : r.method = .ACK) (hs : dlg.state = .INIT)
    (hexp : r.ts ≤ dlg.lastActivityAt + cfg.idleTimeoutInit) :
    dstep cfg (some dlg) r =
      ⟨some { dlg with state := .ESTABLISHED, lastActivityAt := r.ts,
                       methodSeq := dlg.methodSeq ++ [.ACK] }, [], [], []⟩ := by
  have ht : dlg.state.isTerminal = false := by rw [hs]; rfl
  have hlim : cfg.idleLimit dlg.state = cfg.idleTimeoutInit := by rw [hs]; rfl
  simp only [dstep, ht, Bool.false_eq_true, if_false]
  rw [if_neg (by omega)]
  simp [hm, hs]

/-- Per-dialog step on a live non-terminal dialog and an in-window BYE:
TERMINATED, emitting the session summary with the dialog duration. -/
theorem dstep_bye (cfg : Config) (dlg : Dialog) (r : MetadataRecord)
    (hm : r.method = .BYE) (ht : dlg.state.isTerminal = false)
    (hexp : r.ts ≤ dlg.lastActivityAt + cfg.idleLimit dlg.state) :
    dstep cfg (some dlg) r =
      ⟨some { dlg with state := .TERMINATED, lastActivityAt := r.ts,
                       methodSeq := dlg.methodSeq ++ [.BYE] },
       [⟨r.dialogId, .TERMINATED, r.ts - dlg.createdAt, dlg.methodSeq ++ [.BYE]⟩],
       [], []⟩ := by
  simp only [dstep, ht, Bool.false_eq_true, if_false]
  rw [if_neg (by omega)]
  cases hs : dlg.state with
  | TERMINATED => rw [hs] at ht; simp [DialogState.isTerminal] at ht
  | TIMED_OUT => rw [hs] at ht; simp [DialogState.isTerminal] at ht
  | INIT => simp [hm, hs]
  | RINGING => simp [hm, hs]
  | ESTABLISHED => simp [hm, hs]

/-- Per-dialog step on an expired non-terminal dialog: the dialog times
out, one timeout event fires, and the arriving record is an anomaly. -/
theorem dstep_timeout (cfg : Config) (dlg : Dialog) (r : MetadataRecord)
    (ht : dlg.state.isTerminal = false)
    (hexp : dlg.lastActivityAt + cfg.idleLimit dlg.state < r.ts) :
    dstep cfg (some dlg) r =
      ⟨some { dlg with state := .TIMED_OUT },
       [⟨r.dialogId, .TIMED_OUT, dlg.lastActivityAt - dlg.createdAt, dlg.methodSeq⟩],
       [⟨r.dialogId, r.ts⟩],
       [⟨r.dialogId, r.ts⟩]⟩ := by
  simp only [dstep, ht, Bool.false_eq_true, if_false]
  rw [if_pos hexp]

/-- Per-dialog step on a terminal dialog: unchanged, anomaly recorded. -/
theorem dstep_terminal (cfg : Config) (dlg : Dialog) (r : MetadataRecord)
    (ht : dlg.state.isTerminal = true) :
    dstep cfg (some dlg) r = ⟨some dlg, [], [⟨r.dialogId, r.ts⟩], []⟩ := by
  simp only [dstep, ht, if_true]

/-- C1: for every input stream whose records at one dialog id form exactly
a valid in-window INVITE, ACK, BYE sequence, the correlator emits for that
dialog exactly one session summary, in state TERMINATED, whose duration is
the BYE timestamp minus the INVITE timestamp. -/
theorem c1_invite_ack_bye : ∀ (cfg : Config) (l : List MetadataRecord) (d : String)
    (r1 r2 r3 : MetadataRecord),
    l.filter (fun r => r.dialogId == d) = [r1, r2, r3] →
    r1.method = .INVITE → r2.method = .ACK → r3.method = .BYE →
    r1.ts ≤ r2.ts → r2.ts ≤ r3.ts →
    r2.ts ≤ r1.ts + cfg.idleTimeoutInit →
    r3.ts ≤ r2.ts + cfg.idleTimeoutEstablished →
    (viewOf (runCorrelator cfg l) d).summaries =
      [⟨d, .TERMINATED, r3.ts - r1.ts, [.INVITE, .ACK, .BYE]⟩] := by
  intro cfg l d r1 r2 r3 hfil hm1 hm2 hm3 h12 h23 hw2 hw3
  have hd3 : r3.dialogId = d := by
    have hmem : r3 ∈ l.filter (fun r => r.dialogId == d) := by rw [hfil]; simp
    have := (List.mem_filter.mp hmem).2
    exact eq_of_beq this
  rw [runCorrelator, viewOf_foldl cfg l initState d, hfil]
  have hv0 : viewOf initState d = ⟨none, [], [], []⟩ := rfl
  rw [hv0]
  simp only [List.foldl_cons, List.foldl_nil]
  have e1 : dstepView cfg ⟨none, [], [], []⟩ r1 =
      ⟨some ⟨.INIT, r1.ts, r1.ts, [.INVITE]⟩, [], [], []⟩ := by
    simp [dstepView, dstep_none_invite cfg r1 hm1]
  rw [e1]
  have e2 : dstepView cfg ⟨some ⟨.INIT, r1.ts, r1.ts, [.INVITE]⟩, [], [], []⟩ r2 =
      ⟨some ⟨.ESTABLISHED, r1.ts, r2.ts, [.INVITE, .ACK]⟩, [], [], []⟩ := by
    simp only [dstepView]
    rw [dstep_ack_init cfg ⟨.INIT, r1.ts, r1.ts, [.INVITE]⟩ r2 hm2 rfl hw2]
    rfl
  rw [e2]
  have e3 : dstepView cfg ⟨some ⟨.ESTABLISHED, r1.ts, r2.ts, [.INVITE, .ACK]⟩, [], [], []⟩ r3 =
      ⟨some ⟨.TERMINATED, r1.ts, r3.ts, [.INVITE, .ACK, .BYE]⟩,
       [⟨r3.dialogId, .TERMINATED, r3.ts - r1.ts, [.INVITE, .ACK, .BYE]⟩], [], []⟩ := by
    simp only [dstepView]
    rw [dstep_bye cfg ⟨.ESTABLISHED, r1.ts, r2.ts, [.INVITE, .ACK]⟩ r3 hm3 rfl hw3]
    rfl
  rw [e3, hd3]

/-- Witness for C1 at a concrete three-record stream of one dialog. -/
theorem c1_witness :
    [recX, recAckX, recByeX].filter (fun r => r.dialogId == dX) =
      [recX, recAckX, recByeX] ∧
    (viewOf (runCorrelator cfgRep [recX, recAckX, recByeX]) dX).summaries =
      [⟨dX, .TERMINATED, recByeX.ts - recX.ts, [.INVITE, .ACK, .BYE]⟩] := by
  refine ⟨by decide, ?_⟩
  exact c1_invite_ack_bye cfgRep [recX, recAckX, recByeX] dX recX recAckX recByeX
    (by decide) rfl rfl rfl (by decide) (by decide) (by decide) (by decide)

/-- A non-terminal state is not TIMED_OUT. -/
theorem not_timed_out_of_not_terminal (st : DialogState)
    (h : st.isTerminal = false) : st ≠ DialogState.TIMED_OUT := by
  cases st <;> simp_all [DialogState.isTerminal]

/-- One per-dialog step preserves the timeout-count invariant: the number
of emitted timeout events at a key equals one exactly when the dialog
stands in TIMED_OUT. -/
theorem dview_inv (cfg : Config) (v : DView) (r : MetadataRecord)
    (h : v.timeouts.length = timedCount v.dialog) :
    (dstepView cfg v r).timeouts.length = timedCount (dstepView cfg v r).dialog := by
  obtain ⟨od, vs, va, vt⟩ := v
  cases od with
  | none =>
    cases hm : r.method <;>
      simp_all [dstepView, dstep, timedCount, hm]
  | some dlg =>
    obtain ⟨st, ca, la, ms⟩ := dlg
    cases st <;> cases hm : r.method <;>
      simp_all [dstepView, dstep, timedCount, DialogState.isTerminal,
        Config.idleLimit] <;>
      split <;> simp_all

/-- The timeout-count invariant holds along any per-dialog fold. -/
theorem dview_inv_foldl (cfg : Config) (l : List MetadataRecord) (v : DView)
    (h : v.timeouts.length = timedCount v.dialog) :
    ((l.foldl (dstepView cfg) v).timeouts.length =
      timedCount (l.foldl (dstepView cfg) v).dialog) := by
  induction l generalizing v with
  | nil => exact h
  | cons r l ih => exact ih _ (dview_inv cfg v r h)

/-- Once a dialog is terminal, every later per-dialog step leaves it
untouched. -/
theorem dview_absorb_foldl (cfg : Config) (l : List MetadataRecord) (v : DView)
    (dlg : Dialog) (hd : v.dialog = some dlg) (ht : dlg.state.isTerminal = true) :
    (l.foldl (dstepView cfg) v).dialog = some dlg := by
  induction l generalizing v with
  | nil => exact hd
  | cons r l ih =>
    refine ih (dstepView cfg v r) ?_
    simp [dstepView, hd, dstep_terminal cfg dlg r ht]

/-- C5: when a record for a non-terminal dialog arrives after the idle
window expired, the dialog transitions to TIMED_OUT with exactly one
timeout event over the whole run, and at every later point of the stream
the dialog still stands in TIMED_OUT: no further transition occurs. -/
theorem c5_timeout_once : ∀ (cfg : Config) (pre post mid rest : List MetadataRecord)
    (r : MetadataRecord) (d : String) (dlg : Dialog),
    post = mid ++ rest →
    r.dialogId = d →
    (viewOf (runCorrelator cfg pre) d).dialog = some dlg →
    dlg.state.isTerminal = false →
    dlg.lastActivityAt + cfg.idleLimit dlg.state < r.ts →
    ((viewOf (runCorrelator cfg (pre ++ r :: post)) d).timeouts.length = 1 ∧
     (viewOf (runCorrelator cfg (pre ++ r :: mid)) d).dialog =
       some { dlg with state := DialogState.TIMED_OUT }) := by
  intro cfg pre post mid rest r d dlg hsplit hd hdlg ht hexp
  subst hd
  subst hsplit
  have hb : (r.dialogId == r.dialogId) = true := beq_self_eq_true r.dialogId
  have hview : ∀ tl : List MetadataRecord,
      viewOf (runCorrelator cfg (pre ++ r :: tl)) r.dialogId =
        (tl.filter (fun x => x.dialogId == r.dialogId)).foldl (dstepView cfg)
          (dstepView cfg (viewOf (runCorrelator cfg pre) r.dialogId) r) := by
    intro tl
    rw [runCorrelator, viewOf_foldl, List.filter_append, List.filter_cons, hb]
    simp only [if_true, List.foldl_append, List.foldl_cons]
    rw [← viewOf_foldl cfg pre initState r.dialogId, ← runCorrelator]
  have hstep : dstepView cfg (viewOf (runCorrelator cfg pre) r.dialogId) r =
      ⟨some { dlg with state := DialogState.TIMED_OUT },
       (viewOf (runCorrelator cfg pre) r.dialogId).summaries ++
         [⟨r.dialogId, .TIMED_OUT, dlg.lastActivityAt - dlg.createdAt, dlg.methodSeq⟩],
       (viewOf (runCorrelator cfg pre) r.dialogId).anomalies ++ [⟨r.dialogId, r.ts⟩],
       (viewOf (runCorrelator cfg pre) r.dialogId).timeouts ++ [⟨r.dialogId, r.ts⟩]⟩ := by
    simp [dstepView, hdlg, dstep_timeout cfg dlg r ht hexp]
  have htimedOut : ({ dlg with state := DialogState.TIMED_OUT } : Dialog).state.isTerminal
      = true := rfl
  have hpre_inv : (viewOf (runCorrelator cfg pre) r.dialogId).timeouts.length =
      timedCount (viewOf (runCorrelator cfg pre) r.dialogId).dialog := by
    rw [runCorrelator, viewOf_foldl]
    exact dview_inv_foldl cfg _ _ rfl
  have hpre_zero : (viewOf (runCorrelator cfg pre) r.dialogId).timeouts.length = 0 := by
    rw [hpre_inv, hdlg]
    simp [timedCount, not_timed_out_of_not_terminal dlg.state ht]
  constructor
  · have hinv := dview_inv_foldl cfg
      ((mid ++ rest).filter (fun x => x.dialogId == r.dialogId))
      (dstepView cfg (viewOf (runCorrelator cfg pre) r.dialogId) r)
      (by rw [hstep]
          simp [timedCount, List.length_append, hpre_zero])
    rw [hview (mid ++ rest), hinv,
      dview_absorb_foldl cfg _ _ { dlg with state := DialogState.TIMED_OUT }
        (by rw [hstep]) htimedOut]
    simp [timedCount]
  · rw [hview mid]
    exact dview_absorb_foldl cfg _ _ { dlg with state := DialogState.TIMED_OUT }
      (by rw [hstep]) htimedOut

/-- Witness for C5: an INVITE dialog goes idle past the 30-second window
and the next record times it out, once and permanently. -/
theorem c5_witness :
    ([] : List MetadataRecord) = [] ++ [] ∧
    recAckLate.dialogId = dX ∧
    (viewOf (runCorrelator cfgRep [recX]) dX).dialog =
      some ⟨.INIT, 100, 100, [.INVITE]⟩ ∧
    (⟨.INIT, 100, 100, [.INVITE]⟩ : Dialog).state.isTerminal = false ∧
    (⟨.INIT, 100, 100, [.INVITE]⟩ : Dialog).lastActivityAt +
      cfgRep.idleLimit (⟨.INIT, 100, 100, [.INVITE]⟩ : Dialog).state < recAckLate.ts ∧
    ((viewOf (runCorrelator cfgRep ([recX] ++ recAckLate :: [])) dX).timeouts.length = 1 ∧
     (viewOf (runCorrelator cfgRep ([recX] ++ recAckLate :: [])) dX).dialog =
       some ⟨.TIMED_OUT, 100, 100, [.INVITE]⟩) := by
  refine ⟨rfl, rfl, by decide, rfl, by decide, ?_⟩
  exact c5_timeout_once cfgRep [recX] [] [] [] recAckLate dX
    ⟨.INIT, 100, 100, [.INVITE]⟩ rfl rfl (by decide) rfl (by decide)

/-- A record whose preconditions fail leaves a PROTOCOL_ANOMALY behind. -/
theorem dstep_unmet_anomaly (cfg : Config) (od : Option Dialog)
    (r : MetadataRecord) (h : preconditionsMet cfg od r = false) :
    (⟨r.dialogId, r.ts⟩ : ProtocolAnomaly) ∈ (dstep cfg od r).anomalies := by
  cases od with
  | none =>
    cases hm : r.method <;> simp_all [dstep, preconditionsMet, hm]
  | some dlg =>
    obtain ⟨st, ca, la, ms⟩ := dlg
    cases st <;> cases hm : r.method <;>
      simp_all [dstep, preconditionsMet, DialogState.isTerminal, Config.idleLimit] <;>
      split <;> simp_all

/-- Anomalies already emitted persist along any further ingestion. -/
theorem anomalies_foldl_mem (cfg : Config) (l : List MetadataRecord)
    (s : CorrState) (a : ProtocolAnomaly) (h : a ∈ s.anomalies) :
    a ∈ (l.foldl (step cfg) s).anomalies := by
  induction l generalizing s with
  | nil => exact h
  | cons r l ih =>
    refine ih (step cfg s r) ?_
    simp only [step]
    exact List.mem_append_left _ h

/-- C9: a record whose transition preconditions fail, such as a BYE with no
prior INVITE, produces a PROTOCOL_ANOMALY signal in the run output, and the
run continues: the whole stream still folds through the record and the
suffix is processed as usual. -/
theorem c9_anomaly_tolerated : ∀ (cfg : Config) (pre post : List MetadataRecord)
    (r : MetadataRecord),
    preconditionsMet cfg ((runCorrelator cfg pre).dialogs r.dialogId) r = false →
    ((⟨r.dialogId, r.ts⟩ : ProtocolAnomaly) ∈
       (runCorrelator cfg (pre ++ r :: post)).anomalies ∧
     runCorrelator cfg (pre ++ r :: post) =
       post.foldl (step cfg) (step cfg (runCorrelator cfg pre) r)) := by
  intro cfg pre post r h
  have hsplit : runCorrelator cfg (pre ++ r :: post) =
      post.foldl (step cfg) (step cfg (runCorrelator cfg pre) r) := by
    rw [runCorrelator, List.foldl_append, List.foldl_cons, runCorrelator]
  refine ⟨?_, hsplit⟩
  rw [hsplit]
  apply anomalies_foldl_mem
  have hmem := dstep_unmet_anomaly cfg ((runCorrelator cfg pre).dialogs r.dialogId) r h
  simp only [step]
  exact List.mem_append_right _ hmem

/-- Witness for C9: a BYE with no prior INVITE on an empty prefix. -/
theorem c9_witness :
    preconditionsMet cfgRep ((runCorrelator cfgRep []).dialogs recByeOrphan.dialogId)
      recByeOrphan = false ∧
    ((⟨recByeOrphan.dialogId, recByeOrphan.ts⟩ : ProtocolAnomaly) ∈
       (runCorrelator cfgRep ([] ++ recByeOrphan :: [])).anomalies ∧
     runCorrelator cfgRep ([] ++ recByeOrphan :: []) =
       List.foldl (step cfgRep) (step cfgRep (runCorrelator cfgRep []) recByeOrphan) []) :=
  ⟨by decide, c9_anomaly_tolerated cfgRep [] [] recByeOrphan (by decide)⟩

/-- Rule evaluations at positions before a final appended record are
unchanged by the append. -/
theorem ruleAt_append_lt (cfg : Config) (l : List MetadataRecord)
    (r : MetadataRecord) (p : Nat) (hp : p < l.length) :
    ruleAt cfg (l ++ [r]) p = ruleAt cfg l p := by
  unfold ruleAt
  rw [List.getElem?_append_left hp, List.take_append_of_le_length (by omega)]

/-- Fast-path events of a stream with one more record: the earlier events
plus the evaluation at the new final position. -/
theorem fastEvents_snoc (cfg : Config) (l : List MetadataRecord)
    (r : MetadataRecord) :
    fastEvents cfg (l ++ [r]) =
      fastEvents cfg l ++ (ruleAt cfg (l ++ [r]) l.length).toList := by
  unfold fastEvents
  have hlen : (l ++ [r]).length = l.length + 1 := by simp
  rw [hlen, List.range_succ, List.filterMap_append]
  congr 1
  exact List.filterMap_congr fun p hp =>
    ruleAt_append_lt cfg l r p (List.mem_range.mp hp)

/-- A fired rapid-signaling rule is always HIGH or CRITICAL. -/
theorem severityOf_high_or_critical (c k : Nat) :
    severityOf c k = Severity.HIGH ∨ severityOf c k = Severity.CRITICAL := by
  unfold severityOf
  split <;> simp

/-- Records of the C4 burst interval all lie inside the 30-second rule
window ending at any burst record's timestamp. -/
theorem burst_le_window (ip t : Nat) (r : MetadataRecord)
    (l : List MetadataRecord) (hr : burstPred ip t r = true) :
    l.countP (burstPred ip t) ≤ l.countP (windowPred r.srcIp r.ts 30) := by
  apply List.countP_mono_left
  intro a _ ha
  simp only [burstPred, decide_eq_true_eq] at ha hr
  simp only [windowPred, decide_eq_true_eq]
  obtain ⟨ha1, ha2, ha3, ha4⟩ := ha
  obtain ⟨hr1, hr2, hr3, hr4⟩ := hr
  exact ⟨by rw [ha1, hr1], ha2, by omega⟩

/-- C4: whenever one source IP produces 60 INVITE records within a
10-second interval of a stream and the configured rule is 50 events per 30
seconds, the fast path emits at least one RAPID_SIGNALING event of
severity HIGH or CRITICAL. -/
theorem c4_rapid_signaling : ∀ (cfg : Config) (l : List MetadataRecord) (ip t : Nat),
    cfg.rapidThreshold = 50 → cfg.rapidWindow = 30 →
    60 ≤ l.countP (burstPred ip t) →
    ∃ e ∈ fastEvents cfg l, e.etype = EventType.RAPID_SIGNALING ∧
      (e.severity = Severity.HIGH ∨ e.severity = Severity.CRITICAL) := by
  intro cfg l ip t hK hW
  induction l using List.reverseRecOn with
  | nil => intro h; simp at h
  | append_singleton l r ih =>
    intro h
    rw [List.countP_append] at h
    by_cases hr : burstPred ip t r = true
    · by_cases h60 : 60 ≤ l.countP (burstPred ip t)
      · obtain ⟨e, he, hp⟩ := ih h60
        rw [fastEvents_snoc]
        exact ⟨e, List.mem_append_left _ he, hp⟩
      · have hc : 60 ≤ invitesNear r.srcIp r.ts 30 (l ++ [r]) := by
          unfold invitesNear
          calc 60 ≤ (l ++ [r]).countP (burstPred ip t) := by
                rw [List.countP_append]
                exact h
          _ ≤ (l ++ [r]).countP (windowPred r.srcIp r.ts 30) :=
                burst_le_window ip t r (l ++ [r]) hr
        have hget : (l ++ [r])[l.length]? = some r := by simp
        have htake : (l ++ [r]).take (l.length + 1) = l ++ [r] :=
          List.take_of_length_le (by simp)
        have hfire : ruleAt cfg (l ++ [r]) l.length =
            some ⟨r.ts, .RAPID_SIGNALING, r.srcIp,
              severityOf (invitesNear r.srcIp r.ts 30 (l ++ [r])) 50,
              invitesNear r.srcIp r.ts 30 (l ++ [r])⟩ := by
          unfold ruleAt
          rw [hget]
          simp only [htake, hK, hW]
          rw [if_pos (by omega)]
        rw [fastEvents_snoc, hfire]
        refine ⟨⟨r.ts, .RAPID_SIGNALING, r.srcIp,
            severityOf (invitesNear r.srcIp r.ts 30 (l ++ [r])) 50,
            invitesNear r.srcIp r.ts 30 (l ++ [r])⟩,
          List.mem_append_right _ (by simp), rfl,
          severityOf_high_or_critical _ _⟩
    · have hrf : burstPred ip t r = false := by
        cases hb : burstPred ip t r
        · rfl
        · exact absurd hb hr
      have hr0 : [r].countP (burstPred ip t) = 0 := by
        simp [List.countP_cons, hrf]
      rw [hr0] at h
      obtain ⟨e, he, hp⟩ := ih (by omega)
      rw [fastEvents_snoc]
      exact ⟨e, List.mem_append_left _ he, hp⟩

/-- Witness for C4: sixty INVITE records of one IP at one instant against
the 50 per 30 seconds rule. -/
theorem c4_witness :
    cfgRep.rapidThreshold = 50 ∧ cfgRep.rapidWindow = 30 ∧
    60 ≤ (List.replicate 60 recX).countP (burstPred 7 100) ∧
    (∃ e ∈ fastEvents cfgRep (List.replicate 60 recX),
      e.etype = EventType.RAPID_SIGNALING ∧
      (e.severity = Severity.HIGH ∨ e.severity = Severity.CRITICAL)) :=
  ⟨rfl, rfl, by decide,
   c4_rapid_signaling cfgRep (List.replicate 60 recX) 7 100 rfl rfl (by decide)⟩

/-- Every fast-path event is a RAPID_SIGNALING event. -/
theorem fastEvents_rapid (cfg : Config) (l : List MetadataRecord)
    (e : SuspiciousEvent) (h : e ∈ fastEvents cfg l) :
    e.etype = EventType.RAPID_SIGNALING := by
  unfold fastEvents at h
  obtain ⟨p, hp, hr⟩ := List.mem_filterMap.mp h
  unfold ruleAt at hr
  cases hq : l[p]? with
  | none => rw [hq] at hr; simp at hr
  | some r =>
    rw [hq] at hr
    simp only at hr
    split at hr
    · cases hr
      rfl
    · cases hr

/-- Every slow-path event is an ML_OUTLIER event. -/
theorem mlOutlierEvents_ml (cfg : Config) (st : List (Nat × IPProfile))
    (e : SuspiciousEvent) (h : e ∈ mlOutlierEvents cfg st) :
    e.etype = EventType.ML_OUTLIER := by
  unfold mlOutlierEvents at h
  split at h
  · simp at h
  · obtain ⟨x, hx, hr⟩ := List.mem_filterMap.mp h
    split at hr
    · cases hr
      rfl
    · cases hr

/-- Below the minimum population the slow path emits nothing at all. -/
theorem mlOutlierEvents_small (cfg : Config) (st : List (Nat × IPProfile))
    (h : st.length < cfg.minPopulationForMl) :
    mlOutlierEvents cfg st = [] := by
  unfold mlOutlierEvents
  rw [if_pos h]

/-- The fast path never reads the minimum-population setting. -/
theorem fastEvents_minPop (cfg : Config) (m : Nat) (l : List MetadataRecord) :
    fastEvents { cfg with minPopulationForMl := m } l = fastEvents cfg l := by
  unfold fastEvents
  apply List.filterMap_congr
  intro p _
  unfold ruleAt
  cases cfg
  rfl

/-- C7: with fewer tracked IPs than min_population_for_ml the engine cycle
emits no ML_OUTLIER event, while its rule-based events are exactly the
fast-path events, unchanged under any other minimum-population setting. -/
theorem c7_cold_start : ∀ (cfg : Config) (m : Nat) (l : List MetadataRecord),
    (profilesOf l).length < cfg.minPopulationForMl →
    ((runCycle cfg l).filter (fun e => e.etype == EventType.ML_OUTLIER) = [] ∧
     (runCycle { cfg with minPopulationForMl := m } l).filter
       (fun e => !(e.etype == EventType.ML_OUTLIER)) = fastEvents cfg l) := by
  intro cfg m l h
  constructor
  · unfold runCycle
    rw [List.filter_append, mlOutlierEvents_small cfg _ h]
    simp only [List.filter_nil, List.append_nil]
    apply List.filter_eq_nil_iff.mpr
    intro e he
    simp [fastEvents_rapid cfg l e he]
  · unfold runCycle
    rw [List.filter_append]
    have h1 : (mlOutlierEvents { cfg with minPopulationForMl := m }
        (profilesOf l)).filter (fun e => !(e.etype == EventType.ML_OUTLIER)) = [] := by
      apply List.filter_eq_nil_iff.mpr
      intro e he
      simp [mlOutlierEvents_ml _ _ e he]
    have h2 : ∀ e ∈ fastEvents { cfg with minPopulationForMl := m } l,
        (!(e.etype == EventType.ML_OUTLIER)) = true := by
      intro e he
      simp [fastEvents_rapid _ l e he]
    rw [h1, List.append_nil, List.filter_eq_self.mpr h2, fastEvents_minPop]

/-- Witness for C7: a single tracked IP against a minimum population of 5. -/
theorem c7_witness :
    (profilesOf [recX]).length < cfgRep.minPopulationForMl ∧
    ((runCycle cfgRep [recX]).filter (fun e => e.etype == EventType.ML_OUTLIER) = [] ∧
     (runCycle { cfgRep with minPopulationForMl := 0 } [recX]).filter
       (fun e => !(e.etype == EventType.ML_OUTLIER)) = fastEvents cfgRep [recX]) :=
  ⟨by decide, c7_cold_start cfgRep 0 [recX] (by decide)⟩

end VoipTrace
